import Mathlib

/-!
# Verification of the adminjs-graphql adapter core

This development embeds the core data transformations of the
`adminjs-graphql` adapter (GraphQL connection / resource adapter) in
Lean 4 and proves properties of them:

* the JavaScript record inflate/deflate pair of `GraphQLResource.ts`
  (`inflateParams`, `deflateParams`, `deflateReference`),
* the schema-driven property-inference walker of the connection
  (`inflateResources`, `graphQLTypeToPropertyType`, fragment expansion,
  the top-level selection check),
* the request error formatting (`formatGraphQLErrors` / `request`),
* the filter mapping (`mapFilter` with `convertValue`).

JavaScript records are modelled as association lists in JS `ownKeys`
iteration order.  All record constructions performed by the embedded code
go through `objSet`, which preserves that order exactly as a JS string-keyed
property write does (in-place update for an existing key, append for a new
key).  None of the records handled by the theorems below carry integer-like
object keys (arrays are modelled separately), so list order and JS
iteration order agree.  JS numbers are modelled as integers; every numeric
value appearing in the code under verification is integral.
-/

/-- A JavaScript value as handled by the adapter: `null`, `undefined`,
strings, (integral) numbers, booleans, plain objects (association list in
ownKeys order) and arrays (`none` models an array hole). -/
inductive JValue where
  | vNull : JValue
  | vUndef : JValue
  | vStr (s : String) : JValue
  | vInt (n : Int) : JValue
  | vBool (b : Bool) : JValue
  | vObj (fields : List (String × JValue)) : JValue
  | vArr (elems : List (Option JValue)) : JValue

abbrev JFields := List (String × JValue)

namespace JValue

/-- JS truthiness of a modelled value (`NaN` does not arise in the model). -/
def truthy : JValue → Bool
  | vNull => false
  | vUndef => false
  | vStr s => s ≠ ""
  | vInt n => n ≠ 0
  | vBool b => b
  | vObj _ => true
  | vArr _ => true

/-- `typeof x === "object" && x !== null`: plain objects and arrays. -/
def isJsObject : JValue → Bool
  | vObj _ => true
  | vArr _ => true
  | _ => false

end JValue

open JValue

/-- Property read `obj[k]` on a plain object; `none` models `undefined`. -/
def objGet (fields : JFields) (k : String) : Option JValue :=
  match fields with
  | [] => none
  | (k', v) :: rest => if k' = k then some v else objGet rest k

/-- Property write `obj[k] = v` on a plain object: in-place update for an
existing key, append for a fresh key (JS string-key ordering). -/
def objSet (fields : JFields) (k : String) (v : JValue) : JFields :=
  match fields with
  | [] => [(k, v)]
  | (k', v') :: rest => if k' = k then (k', v) :: rest else (k', v') :: objSet rest k v

/-- `Object.values` on a modelled object or array (array holes are skipped,
as JS skips them for own-property enumeration). -/
def jsObjectValues : JValue → List JValue
  | vObj fields => fields.map Prod.snd
  | vArr elems => elems.filterMap id
  | _ => []

/-- Splitting a character list at every occurrence of `c` (keeping empty
chunks), the semantics of JS `String.prototype.split` with a single-character
separator. -/
def splitCharList (c : Char) : List Char → List (List Char)
  | [] => [[]]
  | ch :: rest =>
      let r := splitCharList c rest
      if ch = c then [] :: r
      else
        match r with
        | [] => [[ch]]
        | hd :: tl => (ch :: hd) :: tl

/-- JS `s.split(c)` for a single-character separator `c`. -/
def jsSplit (s : String) (c : Char) : List String :=
  (splitCharList c s.data).map String.mk

/-- Decimal digits prefix parser used by `jsParseInt`. -/
def digitsPrefix : List Char → List Char × List Char
  | [] => ([], [])
  | ch :: rest =>
      if ch.isDigit then
        let (ds, r) := digitsPrefix rest
        (ch :: ds, r)
      else ([], ch :: rest)

/-- Value of a list of decimal digits. -/
def digitsVal (ds : List Char) : Nat :=
  ds.foldl (fun acc ch => acc * 10 + (ch.toNat - '0'.toNat)) 0

/-- JS `parseInt(s)` (radix 10 and the `0x` hex prefix; `none` models `NaN`).
Leading whitespace is skipped, an optional sign is consumed, then the longest
digit prefix is taken; no digits means `NaN`. -/
def jsParseInt (s : String) : Option Int :=
  let chars := s.data.dropWhile (fun ch => ch = ' ' ∨ ch = '\t' ∨ ch = '\n' ∨ ch = '\r')
  let (neg, rest) :=
    match chars with
    | '-' :: r => (true, r)
    | '+' :: r => (false, r)
    | r => (false, r)
  match rest with
  | '0' :: 'x' :: hs =>
      let hexDigits := hs.takeWhile (fun ch => ch.isDigit ∨ ('a' ≤ ch ∧ ch ≤ 'f') ∨ ('A' ≤ ch ∧ ch ≤ 'F'))
      if hexDigits = [] then none
      else
        let v : Nat := hexDigits.foldl (fun acc ch =>
          acc * 16 + (if ch.isDigit then ch.toNat - '0'.toNat
                      else if 'a' ≤ ch then ch.toNat - 'a'.toNat + 10
                      else ch.toNat - 'A'.toNat + 10)) 0
        some (if neg then -(v : Int) else (v : Int))
  | '0' :: 'X' :: hs =>
      let hexDigits := hs.takeWhile (fun ch => ch.isDigit ∨ ('a' ≤ ch ∧ ch ≤ 'f') ∨ ('A' ≤ ch ∧ ch ≤ 'F'))
      if hexDigits = [] then none
      else
        let v : Nat := hexDigits.foldl (fun acc ch =>
          acc * 16 + (if ch.isDigit then ch.toNat - '0'.toNat
                      else if 'a' ≤ ch then ch.toNat - 'a'.toNat + 10
                      else ch.toNat - 'A'.toNat + 10)) 0
        some (if neg then -(v : Int) else (v : Int))
  | _ =>
      let (ds, _) := digitsPrefix rest
      if ds = [] then none
      else some (if neg then -(digitsVal ds : Int) else (digitsVal ds : Int))

/-- Canonical array-index string check: `k` is an own array index of a JS
array exactly when it is the canonical decimal representation of a natural
number. -/
def canonIndex (k : String) : Option Nat :=
  match k.toNat? with
  | some n => if toString n = k then some n else none
  | none => none

/-- `arr.length = n` in JS: truncate, or extend with holes. -/
def jsSetLength (elems : List (Option JValue)) (n : Nat) : List (Option JValue) :=
  if n ≤ elems.length then elems.take n
  else elems ++ List.replicate (n - elems.length) none

/-- `arr[i] = v` in JS: extend with holes when `i` is past the end. -/
def arrSet (elems : List (Option JValue)) (i : Nat) (v : JValue) : List (Option JValue) :=
  (jsSetLength elems (max elems.length (i + 1))).set i (some v)

/-- Array element read `arr[i]`; a hole or out-of-range read is `undefined`
(`none`). -/
def arrGet (elems : List (Option JValue)) (i : Nat) : Option JValue :=
  match elems.get? i with
  | some (some v) => some v
  | _ => none

/-! ## `GraphQLResource.ts`: `inflateParams`, `deflateParams`, `deflateReference` -/

/-- One-key-collapse step of `deflateParams`: given a key and the already
deflated record of its object value, either apply the reference collapse
(`deflatedKeys.length === 1 && IDField in deflated`) or prefix every deflated
sub-key with `key + "."`. -/
def collapseOrPrefix (key : String) (dfields : JFields) (idField : String) : JFields :=
  match dfields with
  | [(dk, dv)] => if dk = idField then [(key, dv)] else [(key ++ "." ++ dk, dv)]
  | _ => dfields.map (fun p => (key ++ "." ++ p.1, p.2))

mutual

/-- `deflateParams(params, IDField)` of `GraphQLResource.ts`: non-objects are
returned unchanged; objects (and arrays, which JS enumerates by index) are
flattened to dotted keys, with the single-`IDField` reference collapse. -/
def deflateParams (params : JValue) (idField : String) : JValue :=
  match params with
  | .vObj fields => .vObj (deflateFields fields idField)
  | .vArr elems => .vObj (deflateElems 0 elems idField)
  | x => x

/-- The key loop of `deflateParams` over the own keys of an object. -/
def deflateFields (fields : JFields) (idField : String) : JFields :=
  match fields with
  | [] => []
  | (key, param) :: rest => deflateEntry key param idField ++ deflateFields rest idField

/-- The key loop of `deflateParams` over the own keys of an array
(`Object.keys` skips holes and enumerates indices in ascending order). -/
def deflateElems (i : Nat) (elems : List (Option JValue)) (idField : String) : JFields :=
  match elems with
  | [] => []
  | none :: rest => deflateElems (i + 1) rest idField
  | some v :: rest => deflateEntry (toString i) v idField ++ deflateElems (i + 1) rest idField

/-- The per-key body of `deflateParams`: recurse into object-valued
properties (the recursive JS call uses the default `IDField = "ID"`),
keep everything else as-is. -/
def deflateEntry (key : String) (param : JValue) (idField : String) : JFields :=
  match param with
  | .vObj fs => collapseOrPrefix key (deflateFields fs "ID") idField
  | .vArr es => collapseOrPrefix key (deflateElems 0 es "ID") idField
  | x => [(key, x)]

end

/-- The last-step assignment of `inflateParams`: `object[steps[0]] = value`
when `object` is a plain object, and `object.length = index + 1;
object[index] = value` when it is an array (`index = parseInt` of the last
path segment; a `NaN` index makes the `length` assignment throw a
`RangeError`).  Assigning a property on a primitive throws a `TypeError` in
strict mode. -/
def setLast (obj : JValue) (k : String) (v : JValue) : Except String JValue :=
  match obj with
  | .vObj fields => .ok (.vObj (objSet fields k v))
  | .vArr elems =>
      match jsParseInt k with
      | none => .error "RangeError: Invalid array length"
      | some i =>
          if 0 ≤ i then .ok (.vArr ((jsSetLength elems (i.toNat + 1)).set i.toNat (some v)))
          else .error "negative index assignment (outside the modelled array semantics)"
  | _ => .error "TypeError: Cannot create property on a primitive value"

/-- One walk/create step plus the final assignment of the `inflateParams`
path loop: descend into `object[step]` (creating `[]` when the remaining
path is a single `parseInt`-able segment, `{}` otherwise; a falsy existing
value is replaced just as `object[step] = object[step] || nextObject` does)
and rebuild the updated object on the way out. -/
def nextObjectFor (rest : List String) : JValue :=
  match rest with
  | [last] => if (jsParseInt last).isSome then .vArr [] else .vObj []
  | _ => .vObj []

def setPath (obj : JValue) (steps : List String) (v : JValue) : Except String JValue :=
  match steps with
  | [] => .ok obj
  | [k] => setLast obj k v
  | step :: rest =>
      let nextObject : JValue := nextObjectFor rest
      match obj with
      | .vObj fields =>
          let next :=
            match objGet fields step with
            | some c => if c.truthy then c else nextObject
            | none => nextObject
          (setPath next rest v).map (fun next' => .vObj (objSet fields step next'))
      | .vArr elems =>
          match canonIndex step with
          | some i =>
              let next :=
                match arrGet elems i with
                | some c => if c.truthy then c else nextObject
                | none => nextObject
              (setPath next rest v).map (fun next' => .vArr (arrSet elems i next'))
          | none => .error "non-index property write on an array (outside the modelled array semantics)"
      | _ => .error "TypeError: Cannot create property on a primitive value"

/-- `inflateParams(params)` of `GraphQLResource.ts`: each flat dotted key is
split on `"."` and written into a freshly built nested record. -/
def inflateParams (params : JFields) : Except String JFields := do
  let record ← params.foldlM (fun acc p => setPath acc (jsSplit p.1 '.') p.2) (JValue.vObj [])
  match record with
  | .vObj fields => .ok fields
  | _ => .error "unreachable: the root record is an object"

/-- `${ref}` string conversion of a modelled value. -/
def jsToString : JValue → String
  | .vNull => "null"
  | .vUndef => "undefined"
  | .vStr s => s
  | .vInt n => toString n
  | .vBool b => if b then "true" else "false"
  | .vObj _ => "[object Object]"
  | .vArr elems => String.intercalate "," (elems.map (fun
      | none => ""
      | some .vNull => ""
      | some .vUndef => ""
      | some (.vObj _) => "[object Object]"
      | some (.vArr _) => "(nested array display not modelled)"
      | some (.vStr s) => s
      | some (.vInt n) => toString n
      | some (.vBool b) => if b then "true" else "false"))

/-- `deflateReference(ref)` of `GraphQLResource.ts`: an object with exactly
one own field collapses to that field's value, anything else is converted
with `${ref}`. -/
def deflateReference (ref : JValue) : JValue :=
  if ref.isJsObject then
    match jsObjectValues ref with
    | [v] => v
    | _ => .vStr (jsToString ref)
  else .vStr (jsToString ref)

/-- The identifier actually used by `GraphQLResourceAdapter.findOne`: the
query mapping is built with `rawResource.findOne(deflateReference(id))`. -/
def findOneQueryId (id : JValue) : JValue := deflateReference id

/-- Projection of an object value to its field list (used to feed a deflated
record back into `inflateParams`). -/
def objFields : JValue → JFields
  | .vObj fields => fields
  | _ => []

/-! ## Claims C8, C9, C10 and the C3 counterexample -/

/-- C8 (counterexample): `inflateParams` is **not** independent of the order
of the flat keys, and the array is **not** sized to (max numeric index + 1):
the loop executes `object.length = index + 1` for every key, so a later
smaller index truncates the array.  Inflating
`{"array.3": "three", "array.0": "zero"}` (the claim's input with its two
keys in the opposite order) yields `{array: ["zero"]}` — the element
`"three"` is dropped — instead of the claimed
`{array: ["zero", <empty>, <empty>, "three"]}`. -/
theorem c8_inflate_order_counterexample :
    inflateParams [("array.3", .vStr "three"), ("array.0", .vStr "zero")]
      = .ok [("array", .vArr [some (.vStr "zero")])] ∧
    inflateParams [("array.3", .vStr "three"), ("array.0", .vStr "zero")]
      ≠ .ok [("array", .vArr [some (.vStr "zero"), none, none, some (.vStr "three")])] := by
  refine ⟨rfl, ?_⟩
  intro h
  rw [show inflateParams [("array.3", .vStr "three"), ("array.0", .vStr "zero")]
      = .ok [("array", .vArr [some (.vStr "zero")])] from rfl] at h
  simp at h

/-- C8 (amended): a parent path whose trailing segment is purely numeric is
materialized as an array sized to (index of the **last-processed** numeric
key + 1); when the numeric keys appear in ascending order — as in the
claim's concrete record — this equals (max numeric index + 1) and the
unassigned intermediate slots are left empty.  In particular inflating
`{"array.0": v₀, "array.3": v₃}` in that key order yields
`{array: [v₀, <empty>, <empty>, v₃]}` for any two values. -/
theorem c8_inflate_ascending_numeric_keys (a b : JValue) :
    inflateParams [("array.0", a), ("array.3", b)]
      = .ok [("array", .vArr [some a, none, none, some b])] := rfl

/-- C9: `deflateParams` begins with
`if (typeof params !== "object" || params == null) return params;`, so it is
the identity on strings, numbers, booleans, `null` and `undefined`, for any
identifier field name. -/
theorem c9_deflate_identity_on_non_objects (idField s : String) (n : Int) (b : Bool) :
    deflateParams (.vStr s) idField = .vStr s ∧
    deflateParams (.vInt n) idField = .vInt n ∧
    deflateParams (.vBool b) idField = .vBool b ∧
    deflateParams .vNull idField = .vNull ∧
    deflateParams .vUndef idField = .vUndef :=
  ⟨rfl, rfl, rfl, rfl, rfl⟩

/-- C10: the identifier handed to the resource's `findOne` query builder is
`deflateReference(id)`: an object (or array) with exactly one own field
collapses to that field's raw value, and every other argument is converted
to its JS string form `${ref}`. -/
theorem c10_findOne_reference_identifier (id : JValue) :
    (∀ v, id.isJsObject = true → jsObjectValues id = [v] → findOneQueryId id = v) ∧
    ((id.isJsObject = false ∨ (jsObjectValues id).length ≠ 1) →
      findOneQueryId id = .vStr (jsToString id)) := by
  constructor
  · intro v hobj hvals
    simp [findOneQueryId, deflateReference, hobj, hvals]
  · intro h
    rcases h with h | h
    · simp [findOneQueryId, deflateReference, h]
    · simp only [findOneQueryId, deflateReference]
      rcases hv : jsObjectValues id with _ | ⟨v, _ | vs⟩ <;>
        simp [hv] at h ⊢

/-! ## Inverse property of `inflateParams` / `deflateParams` (claim C3)

The round trip is proved for records whose leaves are JS primitives and
whose objects are non-empty, carry pairwise-distinct keys that contain no
`"."` and do not `parseInt` to a number, and are never the one-key
`{ID: …}` shape that `deflateParams` collapses. -/

/-- A key usable as a path segment: it contains no `"."` (so joining and
splitting on `"."` are inverse) and `parseInt` fails on it (so
`inflateParams` rebuilds an object, not an array, and JS does not reorder
it in front of the other keys). -/
def goodKey (k : String) : Bool :=
  !k.data.contains '.' && (jsParseInt k).isNone

/-- The one-key `{ID: …}` shape that triggers the reference collapse of
`deflateParams`. -/
def isSingletonID : JFields → Bool
  | [(k, _)] => k = "ID"
  | _ => false

mutual

/-- Well-formed record value for the round-trip theorem: a primitive, or a
non-empty object with good, pairwise-distinct keys, none of the collapsing
`{ID: …}` shape. -/
def wfVal : JValue → Bool
  | .vObj g => !g.isEmpty && !isSingletonID g && wfFields g
  | .vArr _ => false
  | _ => true

/-- Well-formed field list: good fresh keys and well-formed values. -/
def wfFields : JFields → Bool
  | [] => true
  | (k, v) :: rest =>
      goodKey k && !((rest.map Prod.fst).contains k) && wfVal v && wfFields rest

end

/-- The tree paths of a record, as segment lists paired with leaf values:
the shape `deflateParams` flattens a well-formed record into. -/
def flatPaths : JFields → List (List String × JValue)
  | [] => []
  | (k, .vObj g) :: rest => (flatPaths g).map (fun e => (k :: e.1, e.2)) ++ flatPaths rest
  | (k, v) :: rest => ([k], v) :: flatPaths rest

/-- Folding the `inflateParams` path-insertion over a list of pre-split
paths. -/
def foldSetPath (obj : JValue) (entries : List (List String × JValue)) : Except String JValue :=
  entries.foldlM (fun a e => setPath a e.1 e.2) obj

theorem stringMk_data (s : String) : String.mk s.data = s := by cases s; rfl

theorem splitCharList_ne_nil (c : Char) (l : List Char) : splitCharList c l ≠ [] := by
  induction l with
  | nil => simp [splitCharList]
  | cons ch rest ih =>
      simp only [splitCharList]
      split
      · simp
      · match h : splitCharList c rest with
        | [] => simp
        | hd :: tl => simp

theorem splitCharList_no_sep (c : Char) (l : List Char) (h : ¬l.contains c) :
    splitCharList c l = [l] := by
  induction l with
  | nil => rfl
  | cons ch rest ih =>
      rw [List.contains_cons] at h
      simp only [Bool.or_eq_true, not_or, beq_iff_eq] at h
      simp only [splitCharList]
      rw [if_neg (fun hh : ch = c => h.1 hh.symm), ih h.2]

theorem splitCharList_append_sep (c : Char) (a b : List Char) (h : ¬a.contains c) :
    splitCharList c (a ++ c :: b) = a :: splitCharList c b := by
  induction a with
  | nil => simp [splitCharList]
  | cons ch rest ih =>
      rw [List.contains_cons] at h
      simp only [Bool.or_eq_true, not_or, beq_iff_eq] at h
      simp only [List.cons_append, splitCharList, List.append_eq]
      rw [if_neg (fun hh : ch = c => h.1 hh.symm), ih h.2]

theorem jsSplit_no_dot (k : String) (h : ¬k.data.contains '.') :
    jsSplit k '.' = [k] := by
  simp [jsSplit, splitCharList_no_sep '.' k.data h, stringMk_data]

theorem jsSplit_append_seg (k p : String) (h : ¬k.data.contains '.') :
    jsSplit (k ++ "." ++ p) '.' = k :: jsSplit p '.' := by
  have hdata : (k ++ "." ++ p).data = k.data ++ '.' :: p.data := by
    rw [show (k ++ "." ++ p).data = (k.data ++ ['.']) ++ p.data from rfl, List.append_assoc]
    rfl
  simp [jsSplit, hdata, splitCharList_append_sep '.' k.data p.data h, stringMk_data]

theorem objGet_eq_none (l : JFields) (k : String) (h : k ∉ l.map Prod.fst) :
    objGet l k = none := by
  induction l with
  | nil => rfl
  | cons p rest ih =>
      obtain ⟨k', v⟩ := p
      simp only [List.map_cons, List.mem_cons, not_or] at h
      simp only [objGet]
      rw [if_neg (fun hh => h.1 hh.symm)]
      exact ih h.2

theorem objSet_fresh (l : JFields) (k : String) (v : JValue) (h : k ∉ l.map Prod.fst) :
    objSet l k v = l ++ [(k, v)] := by
  induction l with
  | nil => rfl
  | cons p rest ih =>
      obtain ⟨k', v'⟩ := p
      simp only [List.map_cons, List.mem_cons, not_or] at h
      simp only [objSet]
      rw [if_neg (fun hh => h.1 hh.symm)]
      simp [ih h.2]

theorem objGet_objSet_self (l : JFields) (k : String) (v : JValue) :
    objGet (objSet l k v) k = some v := by
  induction l with
  | nil => simp [objSet, objGet]
  | cons p rest ih =>
      obtain ⟨k', v'⟩ := p
      simp only [objSet]
      by_cases hk : k' = k
      · simp [objGet, hk]
      · rw [if_neg hk]
        simp only [objGet]
        rw [if_neg hk]
        exact ih

theorem objSet_objSet (l : JFields) (k : String) (v w : JValue) :
    objSet (objSet l k v) k w = objSet l k w := by
  induction l with
  | nil => simp [objSet]
  | cons p rest ih =>
      obtain ⟨k', v'⟩ := p
      simp only [objSet]
      by_cases hk : k' = k
      · simp [objSet, hk]
      · rw [if_neg hk]
        simp only [objSet]
        rw [if_neg hk, ih, if_neg hk]

theorem objSet_of_objGet (l : JFields) (k : String) (v : JValue) (h : objGet l k = some v) :
    objSet l k v = l := by
  induction l with
  | nil => simp [objGet] at h
  | cons p rest ih =>
      obtain ⟨k', v'⟩ := p
      simp only [objGet] at h
      simp only [objSet]
      by_cases hk : k' = k
      · rw [if_pos hk] at h ⊢
        simp at h
        rw [h]
      · rw [if_neg hk] at h ⊢
        rw [ih h]

theorem flatPaths_cons_scalar (k : String) (v : JValue) (rest : JFields)
    (hv : ∀ g, v ≠ .vObj g) :
    flatPaths ((k, v) :: rest) = ([k], v) :: flatPaths rest := by
  cases v
  case vObj g => exact absurd rfl (hv g)
  all_goals simp [flatPaths]

theorem flatPaths_path_ne_nil (g : JFields) : ∀ e ∈ flatPaths g, e.1 ≠ [] := by
  induction g using flatPaths.induct with
  | case1 => intro e he; simp [flatPaths] at he
  | case2 k g rest ih1 ih2 =>
      intro e he
      simp only [flatPaths, List.mem_append, List.mem_map] at he
      rcases he with ⟨e', _, rfl⟩ | he
      · simp
      · exact ih2 e he
  | case3 k v rest hno ih =>
      intro e he
      rw [flatPaths_cons_scalar k v rest (fun g hg => hno g hg)] at he
      rcases List.mem_cons.mp he with rfl | he
      · simp
      · exact ih e he

theorem wfFields_parts (k : String) (v : JValue) (rest : JFields)
    (h : wfFields ((k, v) :: rest) = true) :
    goodKey k = true ∧ k ∉ rest.map Prod.fst ∧ wfVal v = true ∧ wfFields rest = true := by
  have h' := h
  rw [wfFields] at h'
  simp only [Bool.and_eq_true, Bool.not_eq_true'] at h'
  refine ⟨h'.1.1.1, ?_, h'.1.2, h'.2⟩
  have hc := h'.1.1.2
  simp at hc
  intro hm
  rcases List.mem_map.mp hm with ⟨⟨k2, v2⟩, hm2, hk2⟩
  rcases hk2
  exact hc v2 hm2

theorem wfVal_obj_parts (g : JFields) (h : wfVal (.vObj g) = true) :
    g ≠ [] ∧ isSingletonID g = false ∧ wfFields g = true := by
  rw [wfVal] at h
  simp only [Bool.and_eq_true, Bool.not_eq_true'] at h
  exact ⟨fun hg => by simp [hg] at h, h.1.2, h.2⟩

theorem flatPaths_ne_nil (g : JFields) (hw : wfFields g = true) (hne : g ≠ []) :
    flatPaths g ≠ [] := by
  induction g using flatPaths.induct with
  | case1 => exact absurd rfl hne
  | case2 k g rest ih1 ih2 =>
      obtain ⟨-, -, hv, -⟩ := wfFields_parts _ _ _ hw
      obtain ⟨hg, -, hwg⟩ := wfVal_obj_parts _ hv
      simp only [flatPaths]
      intro habs
      rcases List.append_eq_nil.mp habs with ⟨h1, -⟩
      exact ih1 hwg hg (List.map_eq_nil_iff.mp h1)
  | case3 k v rest hno ih =>
      rw [flatPaths_cons_scalar k v rest (fun g hg => hno g hg)]
      simp

theorem flatPaths_seg_good (g : JFields) (hw : wfFields g = true) :
    ∀ e ∈ flatPaths g, ∀ s ∈ e.1, goodKey s = true := by
  induction g using flatPaths.induct with
  | case1 => intro e he; simp [flatPaths] at he
  | case2 k g rest ih1 ih2 =>
      obtain ⟨hk, -, hv, hrest⟩ := wfFields_parts _ _ _ hw
      obtain ⟨-, -, hwg⟩ := wfVal_obj_parts _ hv
      intro e he
      simp only [flatPaths, List.mem_append, List.mem_map] at he
      rcases he with ⟨e', he', rfl⟩ | he
      · intro s hs
        rcases List.mem_cons.mp hs with rfl | hs
        · exact hk
        · exact ih1 hwg e' he' s hs
      · exact ih2 hrest e he
  | case3 k v rest hno ih =>
      obtain ⟨hk, -, -, hrest⟩ := wfFields_parts _ _ _ hw
      intro e he
      rw [flatPaths_cons_scalar k v rest (fun g hg => hno g hg)] at he
      rcases List.mem_cons.mp he with rfl | he
      · intro s hs
        rcases List.mem_cons.mp hs with rfl | hs
        · exact hk
        · simp at hs
      · exact ih hrest e he

theorem goodKey_parts (k : String) (h : goodKey k = true) :
    ¬k.data.contains '.' ∧ (jsParseInt k).isNone := by
  rw [goodKey] at h
  simp only [Bool.and_eq_true, Bool.not_eq_true'] at h
  refine ⟨?_, h.2⟩
  have hc := h.1
  simp at hc
  simpa using hc

theorem flatPaths_ne_singletonID (g : JFields) (hw : wfFields g = true) (hne : g ≠ [])
    (hsid : isSingletonID g = false) (dv : JValue) : flatPaths g ≠ [(["ID"], dv)] := by
  match g with
  | [] => exact absurd rfl hne
  | (k1, v1) :: rest1 =>
    obtain ⟨-, -, hv1, hrest1⟩ := wfFields_parts _ _ _ hw
    by_cases hobj : ∃ g2, v1 = .vObj g2
    · obtain ⟨g2, rfl⟩ := hobj
      obtain ⟨hg2, -, hwg2⟩ := wfVal_obj_parts _ hv1
      intro habs
      simp only [flatPaths] at habs
      match he : flatPaths g2 with
      | [] => exact flatPaths_ne_nil g2 hwg2 hg2 he
      | e :: es =>
          rw [he] at habs
          simp only [List.map_cons, List.cons_append, List.cons_eq_cons] at habs
          have hpath : k1 :: e.1 = ["ID"] := congrArg Prod.fst habs.1
          have : e.1 = [] := by
            injection hpath with h1 h2
          exact flatPaths_path_ne_nil g2 e (he ▸ List.mem_cons_self e es) this
    · push_neg at hobj
      rw [flatPaths_cons_scalar k1 v1 rest1 hobj]
      intro habs
      simp only [List.cons_eq_cons] at habs
      have hk1 : k1 = "ID" := by
        have := congrArg Prod.fst habs.1
        simpa using this
      have hrestnil : rest1 = [] := by
        by_contra hrne
        exact flatPaths_ne_nil rest1 hrest1 hrne habs.2
      rw [hk1, hrestnil] at hsid
      simp [isSingletonID] at hsid

theorem deflateFields_splits (g : JFields) (hw : wfFields g = true) :
    (deflateFields g "ID").map (fun e => (jsSplit e.1 '.', e.2)) = flatPaths g := by
  induction g using flatPaths.induct with
  | case1 => simp [deflateFields, flatPaths]
  | case2 k g rest ih1 ih2 =>
      obtain ⟨hk, -, hv, hrest⟩ := wfFields_parts _ _ _ hw
      obtain ⟨hgne, hsid, hwg⟩ := wfVal_obj_parts _ hv
      obtain ⟨hkdot, -⟩ := goodKey_parts k hk
      have hnocollapse : collapseOrPrefix k (deflateFields g "ID") "ID"
          = (deflateFields g "ID").map (fun p => (k ++ "." ++ p.1, p.2)) := by
        match hd : deflateFields g "ID" with
        | [] => rfl
        | [(dk, dv)] =>
            by_cases hdk : dk = "ID"
            · exfalso
              have := ih1 hwg
              rw [hd, hdk] at this
              simp only [List.map_cons, List.map_nil] at this
              have hsplit : jsSplit "ID" '.' = ["ID"] := rfl
              rw [hsplit] at this
              exact flatPaths_ne_singletonID g hwg hgne hsid dv this.symm
            · simp [collapseOrPrefix, hdk]
        | (d1 :: d2 :: ds) => rfl
      have hentry : deflateEntry k (.vObj g) "ID"
          = (deflateFields g "ID").map (fun p => (k ++ "." ++ p.1, p.2)) := by
        rw [deflateEntry, hnocollapse]
      calc (deflateFields ((k, .vObj g) :: rest) "ID").map (fun e => (jsSplit e.1 '.', e.2))
          = (deflateEntry k (.vObj g) "ID" ++ deflateFields rest "ID").map
              (fun e => (jsSplit e.1 '.', e.2)) := by rw [deflateFields]
        _ = (deflateEntry k (.vObj g) "ID").map (fun e => (jsSplit e.1 '.', e.2))
              ++ (deflateFields rest "ID").map (fun e => (jsSplit e.1 '.', e.2)) := by
              rw [List.map_append]
        _ = (deflateFields g "ID").map
              (fun p => (jsSplit (k ++ "." ++ p.1) '.', p.2)) ++ flatPaths rest := by
              rw [hentry, List.map_map, ih2 hrest]; rfl
        _ = (deflateFields g "ID").map (fun p => (k :: jsSplit p.1 '.', p.2))
              ++ flatPaths rest := by
              congr 1
              apply List.map_congr_left
              intro p _
              rw [jsSplit_append_seg k p.1 hkdot]
        _ = (flatPaths g).map (fun e => (k :: e.1, e.2)) ++ flatPaths rest := by
              rw [← ih1 hwg, List.map_map]; rfl
        _ = flatPaths ((k, .vObj g) :: rest) := by rw [flatPaths]
  | case3 k v rest hno ih =>
      obtain ⟨hk, -, hv, hrest⟩ := wfFields_parts _ _ _ hw
      obtain ⟨hkdot, -⟩ := goodKey_parts k hk
      have hentry : deflateEntry k v "ID" = [(k, v)] := by
        cases v
        case vObj g => exact absurd rfl (hno g)
        case vArr es => rw [wfVal] at hv; simp at hv
        all_goals rfl
      rw [deflateFields, hentry, flatPaths_cons_scalar k v rest (fun g hg => hno g hg)]
      simp only [List.cons_append, List.nil_append, List.map_cons]
      rw [jsSplit_no_dot k hkdot, ih hrest]

theorem except_map_ok {α β : Type} (f : α → β) (x : Except String α) (r : β)
    (h : Except.map f x = .ok r) : ∃ a, x = .ok a ∧ r = f a := by
  cases x with
  | ok a => exact ⟨a, rfl, (Except.ok.inj h).symm⟩
  | error e => simp [Except.map] at h

theorem setPath_obj_shape (a : JFields) (steps : List String) (v : JValue) (r : JValue)
    (h : setPath (.vObj a) steps v = .ok r) : ∃ f, r = .vObj f := by
  match steps with
  | [] =>
      rw [setPath] at h
      exact ⟨a, (Except.ok.inj h).symm ▸ rfl⟩
  | [k] =>
      rw [setPath, setLast] at h
      exact ⟨objSet a k v, (Except.ok.inj h).symm⟩
  | k :: s1 :: srest =>
      rw [setPath] at h
      · obtain ⟨next', -, rfl⟩ := except_map_ok _ _ _ h
        exact ⟨objSet a k next', rfl⟩
      · simp

theorem setPath_cons_obj (a : JFields) (k s1 : String) (srest : List String) (v : JValue) :
    setPath (.vObj a) (k :: s1 :: srest) v =
      (setPath (match objGet a k with
                | some c => if c.truthy then c else nextObjectFor (s1 :: srest)
                | none => nextObjectFor (s1 :: srest)) (s1 :: srest) v).map
        (fun next' => .vObj (objSet a k next')) := rfl

theorem nextObjectFor_good (st : List String) (h : ∀ s ∈ st, goodKey s = true) :
    nextObjectFor st = .vObj [] := by
  match st with
  | [] => rfl
  | [last] =>
      obtain ⟨-, hp⟩ := goodKey_parts last (h last (List.mem_singleton.mpr rfl))
      rw [nextObjectFor]
      rw [Option.isNone_iff_eq_none] at hp
      simp [hp]
  | a :: b :: t => rfl

theorem foldSetPath_nil (a : JValue) : foldSetPath a [] = .ok a := rfl

theorem foldSetPath_cons (a : JValue) (e : List String × JValue)
    (l : List (List String × JValue)) :
    foldSetPath a (e :: l) = (setPath a e.1 e.2).bind (fun r => foldSetPath r l) := by
  rw [foldSetPath, List.foldlM_cons]
  rfl

theorem foldSetPath_append (a : JValue) (l1 l2 : List (List String × JValue)) :
    foldSetPath a (l1 ++ l2) = (foldSetPath a l1).bind (fun r => foldSetPath r l2) := by
  rw [foldSetPath, List.foldlM_append]
  rfl

theorem foldSetPath_lift (entries : List (List String × JValue)) :
    ∀ (acc inner : JFields) (k : String) (out : JValue),
    (∀ e ∈ entries, e.1 ≠ []) →
    objGet acc k = some (.vObj inner) →
    foldSetPath (.vObj inner) entries = .ok out →
    foldSetPath (.vObj acc) (entries.map (fun e => (k :: e.1, e.2)))
      = .ok (.vObj (objSet acc k out)) := by
  induction entries with
  | nil =>
      intro acc inner k out hne hget hfold
      rw [foldSetPath_nil] at hfold
      rw [List.map_nil, foldSetPath_nil, ← Except.ok.inj hfold,
        objSet_of_objGet acc k _ hget]
  | cons e rest ih =>
      intro acc inner k out hne hget hfold
      obtain ⟨st, v⟩ := e
      have hst : st ≠ [] := hne (st, v) (List.mem_cons_self _ _)
      match st, hst with
      | s1 :: srest, _ =>
        rw [foldSetPath_cons] at hfold
        match hsp : setPath (.vObj inner) (s1 :: srest) v with
        | .error err => rw [hsp] at hfold; simp [Except.bind] at hfold
        | .ok m1 =>
            rw [hsp] at hfold
            simp only [Except.bind] at hfold
            obtain ⟨m1f, rfl⟩ := setPath_obj_shape inner _ v m1 hsp
            rw [List.map_cons, foldSetPath_cons]
            have hstep : setPath (.vObj acc) (k :: s1 :: srest) v
                = .ok (.vObj (objSet acc k (.vObj m1f))) := by
              rw [setPath_cons_obj, hget]
              simp only [JValue.truthy, if_true]
              rw [hsp]
              rfl
            rw [hstep]
            simp only [Except.bind]
            rw [ih (objSet acc k (.vObj m1f)) m1f k out
              (fun e' he' => hne e' (List.mem_cons_of_mem _ he'))
              (objGet_objSet_self acc k _) hfold, objSet_objSet]

theorem objGet_append_fresh (acc : JFields) (k : String) (x : JValue)
    (h : k ∉ acc.map Prod.fst) : objGet (acc ++ [(k, x)]) k = some x := by
  rw [← objSet_fresh acc k x h]
  exact objGet_objSet_self acc k x

theorem objSet_append_fresh (acc : JFields) (k : String) (x y : JValue)
    (h : k ∉ acc.map Prod.fst) :
    objSet (acc ++ [(k, x)]) k y = acc ++ [(k, y)] := by
  rw [← objSet_fresh acc k x h, objSet_objSet, objSet_fresh acc k y h]

theorem foldSetPath_group (entries : List (List String × JValue)) (acc gout : JFields)
    (k : String)
    (hne : entries ≠ [])
    (hpaths : ∀ e ∈ entries, e.1 ≠ [])
    (hsegs : ∀ e ∈ entries, ∀ s ∈ e.1, goodKey s = true)
    (hfresh : k ∉ acc.map Prod.fst)
    (hfold : foldSetPath (.vObj []) entries = .ok (.vObj gout)) :
    foldSetPath (.vObj acc) (entries.map (fun e => (k :: e.1, e.2)))
      = .ok (.vObj (acc ++ [(k, .vObj gout)])) := by
  match entries with
  | [] => exact absurd rfl hne
  | (st, v) :: rest =>
    have hst : st ≠ [] := hpaths (st, v) (List.mem_cons_self _ _)
    match st, hst with
    | s1 :: srest, _ =>
      rw [foldSetPath_cons] at hfold
      match hsp : setPath (.vObj []) (s1 :: srest) v with
      | .error err => rw [hsp] at hfold; simp [Except.bind] at hfold
      | .ok m1 =>
          rw [hsp] at hfold
          simp only [Except.bind] at hfold
          obtain ⟨m1f, rfl⟩ := setPath_obj_shape [] _ v m1 hsp
          have hnext : nextObjectFor (s1 :: srest) = .vObj [] :=
            nextObjectFor_good (s1 :: srest)
              (hsegs (s1 :: srest, v) (List.mem_cons_self _ _))
          have hstep : setPath (.vObj acc) (k :: s1 :: srest) v
              = .ok (.vObj (acc ++ [(k, .vObj m1f)])) := by
            rw [setPath_cons_obj, objGet_eq_none acc k hfresh, hnext, hsp]
            simp only [Except.map]
            rw [objSet_fresh acc k _ hfresh]
          rw [List.map_cons, foldSetPath_cons, hstep]
          simp only [Except.bind]
          rw [foldSetPath_lift rest (acc ++ [(k, .vObj m1f)]) m1f k (.vObj gout)
            (fun e' he' => hpaths e' (List.mem_cons_of_mem _ he'))
            (objGet_append_fresh acc k _ hfresh) hfold,
            objSet_append_fresh acc k _ _ hfresh]

theorem foldSetPath_flatPaths (g : JFields) (hw : wfFields g = true) :
    ∀ acc : JFields, (∀ k' ∈ g.map Prod.fst, k' ∉ acc.map Prod.fst) →
    foldSetPath (.vObj acc) (flatPaths g) = .ok (.vObj (acc ++ g)) := by
  induction g using flatPaths.induct with
  | case1 => intro acc _; simp [flatPaths, foldSetPath_nil]
  | case2 k g' rest ih1 ih2 =>
      obtain ⟨hk, hkfresh, hv, hrest⟩ := wfFields_parts _ _ _ hw
      obtain ⟨hg'ne, hsid, hwg'⟩ := wfVal_obj_parts _ hv
      intro acc hdisj
      have hkacc : k ∉ acc.map Prod.fst := hdisj k (by simp)
      have hinner : foldSetPath (.vObj []) (flatPaths g') = .ok (.vObj g') := by
        have := ih1 hwg' [] (by simp)
        simpa using this
      rw [show flatPaths ((k, .vObj g') :: rest)
          = (flatPaths g').map (fun e => (k :: e.1, e.2)) ++ flatPaths rest from by
          rw [flatPaths]]
      rw [foldSetPath_append,
        foldSetPath_group (flatPaths g') acc g' k
          (flatPaths_ne_nil g' hwg' hg'ne)
          (flatPaths_path_ne_nil g')
          (flatPaths_seg_good g' hwg')
          hkacc hinner]
      simp only [Except.bind]
      have hdisj2 : ∀ k' ∈ rest.map Prod.fst, k' ∉ (acc ++ [(k, JValue.vObj g')]).map Prod.fst := by
        intro k' hk' hmem
        rw [List.map_append, List.mem_append] at hmem
        rcases hmem with hmem | hmem
        · exact hdisj k' (by simp [hk']) hmem
        · simp at hmem
          rw [hmem] at hk'
          exact hkfresh hk'
      have hfin := ih2 hrest (acc ++ [(k, .vObj g')]) hdisj2
      rw [List.append_assoc] at hfin
      exact hfin
  | case3 k v rest hno ih =>
      obtain ⟨hk, hkfresh, hv, hrest⟩ := wfFields_parts _ _ _ hw
      intro acc hdisj
      have hkacc : k ∉ acc.map Prod.fst := hdisj k (by simp)
      rw [flatPaths_cons_scalar k v rest (fun g hg => hno g hg), foldSetPath_cons]
      have hstep : setPath (.vObj acc) [k] v = .ok (.vObj (acc ++ [(k, v)])) := by
        rw [setPath, setLast, objSet_fresh acc k v hkacc]
      rw [hstep]
      simp only [Except.bind]
      have hdisj2 : ∀ k' ∈ rest.map Prod.fst, k' ∉ (acc ++ [(k, v)]).map Prod.fst := by
        intro k' hk' hmem
        rw [List.map_append, List.mem_append] at hmem
        rcases hmem with hmem | hmem
        · exact hdisj k' (by simp [hk']) hmem
        · simp at hmem
          rw [hmem] at hk'
          exact hkfresh hk'
      have hfin := ih hrest (acc ++ [(k, v)]) hdisj2
      rw [List.append_assoc] at hfin
      exact hfin

theorem foldlM_setPath_map (params : JFields) : ∀ init : JValue,
    params.foldlM (fun acc p => setPath acc (jsSplit p.1 '.') p.2) init
      = foldSetPath init (params.map (fun p => (jsSplit p.1 '.', p.2))) := by
  induction params with
  | nil => intro init; rfl
  | cons p rest ih =>
      intro init
      rw [List.foldlM_cons, List.map_cons, foldSetPath_cons]
      cases hsp : setPath init (jsSplit p.1 '.') p.2 with
      | ok r => exact ih r
      | error e => rfl

theorem inflateParams_as_fold (params : JFields) :
    inflateParams params
      = (foldSetPath (.vObj []) (params.map (fun p => (jsSplit p.1 '.', p.2)))).bind
          (fun r =>
            match r with
            | .vObj fields => .ok fields
            | _ => .error "unreachable: the root record is an object") := by
  rw [inflateParams, foldlM_setPath_map]
  rfl

/-- C3 (counterexample): `inflateParams` and `deflateParams` are **not**
mutually inverse on every record free of reference-shorthand collapsing.
The nested record `{a: {}}` contains no object whose only key is the
identifier field, yet `deflateParams` erases the empty object entirely
(its key loop emits no flat key for it), so inflating the deflation gives
`{}`, not `{a: {}}`. -/
theorem c3_roundtrip_counterexample :
    inflateParams (objFields (deflateParams (.vObj [("a", .vObj [])]) "ID"))
      = .ok ([] : JFields) ∧
    inflateParams (objFields (deflateParams (.vObj [("a", .vObj [])]) "ID"))
      ≠ .ok [("a", JValue.vObj [])] := by
  refine ⟨rfl, ?_⟩
  intro h
  rw [show inflateParams (objFields (deflateParams (.vObj [("a", .vObj [])]) "ID"))
      = .ok ([] : JFields) from rfl] at h
  simp at h

/-- C3 (amended): `inflateParams` and `deflateParams` are mutually inverse
on well-formed records (`wfFields`): leaves are JS primitives, every object
is non-empty with pairwise-distinct keys containing no `"."` and not
parsing as numbers, and no nested object has exactly the single key `"ID"`
(no reference-shorthand collapsing).  Then inflating the deflation returns
the record exactly, and deflating that inflation returns the flat record
exactly. -/
theorem c3_inflate_deflate_inverse (g flat : JFields)
    (hw : wfFields g = true)
    (hflat : deflateParams (.vObj g) "ID" = .vObj flat) :
    inflateParams flat = .ok g ∧
    (inflateParams flat).map (fun r => deflateParams (.vObj r) "ID") = .ok (.vObj flat) := by
  have hflat' : flat = deflateFields g "ID" := by
    rw [deflateParams] at hflat
    exact (JValue.vObj.inj hflat).symm
  have h1 : inflateParams flat = .ok g := by
    rw [hflat', inflateParams_as_fold, deflateFields_splits g hw,
      foldSetPath_flatPaths g hw [] (by simp)]
    simp [Except.bind]
  refine ⟨h1, ?_⟩
  rw [h1]
  simp only [Except.map]
  rw [hflat]

/-- Witness for `c3_inflate_deflate_inverse`: the repo's own "deep object"
test record `{a: 1, b: "bee", c: {d: {e: "eee"}}}` is well-formed, deflates
to `{a: 1, b: "bee", "c.d.e": "eee"}`, and both round trips are exact. -/
theorem c3_inflate_deflate_inverse_witness :
    wfFields [("a", JValue.vInt 1), ("b", JValue.vStr "bee"),
        ("c", JValue.vObj [("d", JValue.vObj [("e", JValue.vStr "eee")])])] = true ∧
    deflateParams (.vObj [("a", JValue.vInt 1), ("b", JValue.vStr "bee"),
        ("c", JValue.vObj [("d", JValue.vObj [("e", JValue.vStr "eee")])])]) "ID"
      = .vObj [("a", JValue.vInt 1), ("b", JValue.vStr "bee"), ("c.d.e", JValue.vStr "eee")] ∧
    inflateParams [("a", JValue.vInt 1), ("b", JValue.vStr "bee"), ("c.d.e", JValue.vStr "eee")]
      = .ok [("a", JValue.vInt 1), ("b", JValue.vStr "bee"),
          ("c", JValue.vObj [("d", JValue.vObj [("e", JValue.vStr "eee")])])] :=
  ⟨rfl, rfl,
    (c3_inflate_deflate_inverse
      [("a", JValue.vInt 1), ("b", JValue.vStr "bee"),
        ("c", JValue.vObj [("d", JValue.vObj [("e", JValue.vStr "eee")])])]
      [("a", JValue.vInt 1), ("b", JValue.vStr "bee"), ("c.d.e", JValue.vStr "eee")]
      rfl rfl).1⟩

/-- Witness for `c10_findOne_reference_identifier`: `{ID: "i-d"}` collapses
to `"i-d"`, and the number `42` is stringified. -/
theorem c10_findOne_reference_identifier_witness :
    findOneQueryId (.vObj [("ID", .vStr "i-d")]) = .vStr "i-d" ∧
    findOneQueryId (.vInt 42) = .vStr "42" :=
  ⟨(c10_findOne_reference_identifier (.vObj [("ID", .vStr "i-d")])).1 (.vStr "i-d") rfl rfl,
   (c10_findOne_reference_identifier (.vInt 42)).2 (Or.inl rfl)⟩

/-! ## The GraphQL schema model and the property-inference walker
(`GraphQLConnection.inflateResources` of the connection module) -/

/-- AdminJS property types as used by the adapter
(`graphQLTypeToPropertyType` produces the first six; `reference` is set by
reference inference or the `referenceFields` option). -/
inductive PropertyType where
  | string | float | number | boolean | datetime | mixed | reference
  deriving Repr, DecidableEq

mutual

/-- An introspected named GraphQL type: scalar, enum (with its legal
values), or object (with its field map). -/
inductive GQLNamedType where
  | scalar (name : String) : GQLNamedType
  | enum (name : String) (values : List String) : GQLNamedType
  | object (name : String) (fields : List (String × GQLType)) : GQLNamedType

/-- A GraphQL output type: a named type possibly under list / non-null
wrappers. -/
inductive GQLType where
  | named (t : GQLNamedType) : GQLType
  | list (ofType : GQLType) : GQLType
  | nonNull (ofType : GQLType) : GQLType

end

/-- `type.name` of a named GraphQL type. -/
def GQLNamedType.name : GQLNamedType → String
  | .scalar n => n
  | .enum n _ => n
  | .object n _ => n

/-- The client-side schema: the root operation types, looked up by the
type-tracking visitor. -/
structure GQLSchema where
  queryType : Option GQLNamedType
  mutationType : Option GQLNamedType

/-- The wrapper-unwrapping loop of the walker's `Field` enter handler:
`isArray` is set by a list wrapper, and `isRequired` by a non-null wrapper
seen while `isArray` is still false. -/
def unwrapType : GQLType → Bool → Bool → Bool × Bool × GQLNamedType
  | .named t, isArray, isRequired => (isArray, isRequired, t)
  | .list inner, _, isRequired => unwrapType inner true isRequired
  | .nonNull inner, isArray, isRequired =>
      unwrapType inner isArray (if isArray then isRequired else true)

/-- `getNamedType`: strip all wrappers. -/
def unwrapNamed : GQLType → GQLNamedType
  | .named t => t
  | .list inner => unwrapNamed inner
  | .nonNull inner => unwrapNamed inner

/-- `typeIsID` of the connection module: the type unwraps to the built-in
`ID` scalar. -/
def typeIsID (t : GQLType) : Bool :=
  match unwrapNamed t with
  | .scalar n => n = "ID"
  | _ => false

/-- `GraphQLConnection.graphQLTypeToPropertyType`: the name-based scalar
kind mapping (note the source matches `"Bool"`, not `"Boolean"`). -/
def graphQLTypeToPropertyType (graphQLType : GQLNamedType) : PropertyType :=
  match graphQLType.name with
  | "String" => .string
  | "ID" => .string
  | "Float" => .float
  | "Int" => .number
  | "Bool" => .boolean
  | "Date" => .datetime
  | _ => .mixed

/-- A selection node of a parsed GraphQL document.  `selectionSet` mirrors
the graphql-js quirk that a fragment spread is replaced by the fragment's
`SelectionSet` *node* inside the selections array. -/
inductive SelectionNode where
  | field (name : String) (selectionSet : Option (List SelectionNode)) : SelectionNode
  | fragmentSpread (name : String) : SelectionNode
  | selectionSet (selections : List SelectionNode) : SelectionNode

/-- A top-level operation definition (`query` / `mutation`). -/
structure OperationDefinitionNode where
  operation : String
  selections : List SelectionNode

/-- A fragment definition. -/
structure FragmentDefinitionNode where
  name : String
  selections : List SelectionNode

/-- A top-level document definition. -/
inductive DefinitionNode where
  | operation (op : OperationDefinitionNode) : DefinitionNode
  | fragment (frag : FragmentDefinitionNode) : DefinitionNode

/-- A parsed GraphQL document. -/
structure DocumentNode where
  definitions : List DefinitionNode

/-- Adapter error kinds (spec §7); the source throws plain `Error`s whose
sites map onto these kinds. -/
inductive AdapterError where
  | invalidDocument (msg : String) : AdapterError
  | schemaMismatch (msg : String) : AdapterError
  | remoteGraphQL (msg : String) : AdapterError
  | coercion (msg : String) : AdapterError
  deriving Repr, DecidableEq

/-- `GraphQLPropertyAdapter` of `GraphQLProperty.ts`: one inferred property
(path, kind, flags, enum values, reference target, sub-properties). -/
inductive GraphQLPropertyAdapter where
  | mk (path : String) (type : PropertyType) (isId : Bool) (isSortable : Bool)
      (referencing : Option String) (enumValues : Option (List String))
      (isArray : Bool) (isRequired : Bool)
      (subProperties : List GraphQLPropertyAdapter) : GraphQLPropertyAdapter

namespace GraphQLPropertyAdapter

def path : GraphQLPropertyAdapter → String
  | mk p _ _ _ _ _ _ _ _ => p

def type : GraphQLPropertyAdapter → PropertyType
  | mk _ t _ _ _ _ _ _ _ => t

def isId : GraphQLPropertyAdapter → Bool
  | mk _ _ i _ _ _ _ _ _ => i

def isSortable : GraphQLPropertyAdapter → Bool
  | mk _ _ _ s _ _ _ _ _ => s

def referencing : GraphQLPropertyAdapter → Option String
  | mk _ _ _ _ r _ _ _ _ => r

def enumValues : GraphQLPropertyAdapter → Option (List String)
  | mk _ _ _ _ _ e _ _ _ => e

def isArray : GraphQLPropertyAdapter → Bool
  | mk _ _ _ _ _ _ a _ _ => a

def isRequired : GraphQLPropertyAdapter → Bool
  | mk _ _ _ _ _ _ _ r _ => r

def subProperties : GraphQLPropertyAdapter → List GraphQLPropertyAdapter
  | mk _ _ _ _ _ _ _ _ sub => sub

/-- `setSubProperties` (attaches the collected child list). -/
def withSubProperties : GraphQLPropertyAdapter → List GraphQLPropertyAdapter → GraphQLPropertyAdapter
  | mk p t i s r e a req _, sub => mk p t i s r e a req sub

end GraphQLPropertyAdapter

/-- The per-resource configuration consumed by `inflateResources`
(`GraphQLResource` fields other than the query builders). -/
structure GraphQLResourceConfig where
  id : String
  sortableFields : Option (List String)
  referenceFields : List (String × String)
  makeSubproperties : Bool

/-- JS `Map.set` / keyed insertion preserving insertion order. -/
def assocSet {α : Type} (l : List (String × α)) (k : String) (v : α) : List (String × α) :=
  match l with
  | [] => [(k, v)]
  | (k', v') :: rest => if k' = k then (k', v) :: rest else (k', v') :: assocSet rest k v

mutual

/-- `expandFragments` of the connection module, on one selection: a
`FragmentSpread` is replaced by the referenced fragment's selection-set
node (and, as graphql-js `visit` does, the replacement is traversed again,
expanding nested spreads).  The fuel argument models the JS call stack;
cyclic fragments exhaust it (any fuel past the expanded tree size behaves
identically). -/
def expandSelection (frags : List FragmentDefinitionNode) :
    Nat → SelectionNode → Except AdapterError SelectionNode
  | 0, _ => .error (.invalidDocument "fragment expansion exceeded the modelled recursion depth")
  | _ + 1, .field n none => .ok (.field n none)
  | fuel + 1, .field n (some sels) =>
      (expandSelections frags fuel sels).map (fun es => .field n (some es))
  | fuel + 1, .fragmentSpread n =>
      match frags.find? (fun f => f.name = n) with
      | none => .error (.invalidDocument "Invalid spread reference")
      | some f => (expandSelections frags fuel f.selections).map .selectionSet
  | fuel + 1, .selectionSet sels =>
      (expandSelections frags fuel sels).map .selectionSet

/-- `expandFragments` over a selection list. -/
def expandSelections (frags : List FragmentDefinitionNode) :
    Nat → List SelectionNode → Except AdapterError (List SelectionNode)
  | 0, _ => .error (.invalidDocument "fragment expansion exceeded the modelled recursion depth")
  | _ + 1, [] => .ok []
  | fuel + 1, s :: rest => do
      let s' ← expandSelection frags fuel s
      let rest' ← expandSelections frags fuel rest
      .ok (s' :: rest')

end

/-- `expandFragments` on a whole document: collect the fragment
definitions, then replace every spread in every definition. -/
def expandFragments (fuel : Nat) (doc : DocumentNode) : Except AdapterError DocumentNode := do
  let frags := doc.definitions.filterMap (fun d =>
    match d with
    | .fragment f => some f
    | _ => none)
  let defs ← doc.definitions.mapM (fun d =>
    match d with
    | .operation op =>
        (expandSelections frags fuel op.selections).map
          (fun ss => DefinitionNode.operation ⟨op.operation, ss⟩)
    | .fragment f =>
        (expandSelections frags fuel f.selections).map
          (fun ss => DefinitionNode.fragment ⟨f.name, ss⟩))
  .ok ⟨defs⟩

/-- `TypeInfo.getType()` for a field: its declared type in the parent
object type, `none` (`undefined`) when the parent is absent, not an object
type, or lacks the field. -/
def getFieldType (parent : Option GQLNamedType) (name : String) : Option GQLType :=
  match parent with
  | some (.object _ fields) => fields.lookup name
  | _ => none

abbrev PropMap := List (String × GraphQLPropertyAdapter)
abbrev TypeMap := List (String × GQLNamedType)

mutual

/-- The `Field` enter/leave pair of `GraphQLConnection.inflateResources`,
as a recursion over the selection tree: returns the properties this node
contributes to the enclosing selection's list, together with the updated
`propertyMap` and `typeMap`.  Fields whose parent type is named `Query` or
`Mutation` are skipped (their children contribute directly); a
`selectionSet` node (an expanded fragment spread) is transparent, exactly
as the visitor's type tracking treats it. -/
def walkSelection (res : GraphQLResourceConfig) (parentType : Option GQLNamedType)
    (path : List String) (props : PropMap) (tm : TypeMap) :
    SelectionNode → Except AdapterError (List GraphQLPropertyAdapter × PropMap × TypeMap)
  | .fragmentSpread _ => .ok ([], props, tm)
  | .selectionSet sels => walkSelections res parentType path props tm sels
  | .field fieldName selSet =>
      let parentName := match parentType with
        | some t => t.name
        | none => ""
      if parentName = "Query" ∨ parentName = "Mutation" then
        match selSet with
        | none => .ok ([], props, tm)
        | some sels =>
            walkSelections res ((getFieldType parentType fieldName).map unwrapNamed)
              path props tm sels
      else
        match getFieldType parentType fieldName with
        | none =>
            .error (.schemaMismatch
              ("Unexpected empty type for field \"" ++ fieldName ++ "\" of resource \"" ++ res.id ++ "\""))
        | some declaredType => do
            let (isArray, isRequired, namedType) := unwrapType declaredType false false
            let enumValues : Option (List String) :=
              match namedType with
              | .enum _ vs => some vs
              | _ => none
            let parentPath := String.intercalate "." path
            let propertyPath := String.intercalate "." (path ++ [fieldName])
            let inferred ← (match namedType with
              | .object oname ofields =>
                  (match selSet.getD [] with
                    | [.field childName _] =>
                        (match ofields.lookup childName with
                          | none => .error (.schemaMismatch
                              ("Field " ++ childName ++ " is not in " ++ oname))
                          | some ft =>
                              if typeIsID ft then .ok (some (PropertyType.reference, oname))
                              else .ok none)
                    | _ => .ok none)
              | _ => .ok (none : Option (PropertyType × String)))
            let propertyType :=
              match inferred with
              | some (pt, _) => pt
              | none =>
                  if (res.referenceFields.lookup propertyPath).isSome then .reference
                  else if (match enumValues with
                    | some vs => vs.length != 0
                    | none => false) then .string
                  else graphQLTypeToPropertyType namedType
            let isSortable :=
              match res.sortableFields with
              | some fs => fs.contains propertyPath
              | none => !(propertyType == .reference)
            let parentProperty := props.lookup parentPath
            let useFullPath := !res.makeSubproperties &&
              !(match parentProperty with
                | some pp => pp.type == .mixed && pp.isArray
                | none => false)
            let property := GraphQLPropertyAdapter.mk
              (if useFullPath then propertyPath else fieldName)
              propertyType
              (namedType.name == "ID" && !(propertyType == .reference))
              isSortable
              (match inferred with
                | some (_, oname) => some oname
                | none => res.referenceFields.lookup propertyPath)
              enumValues isArray isRequired []
            let props1 := assocSet props propertyPath property
            let tm1 := assocSet tm propertyPath namedType
            match selSet with
            | none => .ok ([property], props1, tm1)
            | some sels => do
                let (children, props2, tm2) ←
                  walkSelections res (some namedType) (path ++ [fieldName]) props1 tm1 sels
                if (property.type == .mixed && property.isArray) || res.makeSubproperties then
                  .ok ([property.withSubProperties children], props2, tm2)
                else
                  match children with
                  | [c] =>
                      if c.isId then .ok ([property], props2, tm2)
                      else .ok (property :: children, props2, tm2)
                  | _ => .ok (property :: children, props2, tm2)

/-- The walker over a selection list, threading the maps and concatenating
the contributed properties (the visitor's `objectStack` top). -/
def walkSelections (res : GraphQLResourceConfig) (parentType : Option GQLNamedType)
    (path : List String) (props : PropMap) (tm : TypeMap) :
    List SelectionNode → Except AdapterError (List GraphQLPropertyAdapter × PropMap × TypeMap)
  | [] => .ok ([], props, tm)
  | s :: rest => do
      let (ps1, props1, tm1) ← walkSelection res parentType path props tm s
      let (ps2, props2, tm2) ← walkSelections res parentType path props1 tm1 rest
      .ok (ps1 ++ ps2, props2, tm2)

end

/-- The post-expansion stage of one resource's initialization in
`GraphQLConnection.inflateResources`: require an operation definition and
exactly one top-level selection, walk the operation with the type-tracking
visitor, and drop degenerate properties (`mixed` kind with no
sub-properties). -/
def inflateExpandedResource (res : GraphQLResourceConfig) (schema : GQLSchema)
    (expanded : DocumentNode) : Except AdapterError (List GraphQLPropertyAdapter) :=
  match expanded.definitions.findSome? (fun d =>
    match d with
    | .operation op => some op
    | _ => none) with
  | none => .error (.invalidDocument "Document without operation is not allowed")
  | some operationDefinition =>
      if operationDefinition.selections.length ≠ 1 then
        .error (.invalidDocument "Top level selections must contain exactly one field")
      else do
        let rootType :=
          if operationDefinition.operation = "mutation" then schema.mutationType
          else schema.queryType
        let (rootProps, _, _) ←
          walkSelections res rootType [] [] [] operationDefinition.selections
        .ok (rootProps.filter (fun p => !(p.type == .mixed) || !p.subProperties.isEmpty))

/-- One resource's initialization in `GraphQLConnection.inflateResources`:
expand fragments in the sample `findOne` document, then run the top-level
checks and the walk. -/
def inflateResource (fuel : Nat) (res : GraphQLResourceConfig) (schema : GQLSchema)
    (findOneDocument : DocumentNode) : Except AdapterError (List GraphQLPropertyAdapter) :=
  (expandFragments fuel findOneDocument).bind (inflateExpandedResource res schema)

/-! ## Claims C1, C5, C6 -/

/-- The schema type `type Thing { ID: ID!, name: String!, tags: [String!]! }`
of the end-to-end scenario. -/
def thingType : GQLNamedType :=
  .object "Thing" [
    ("ID", .nonNull (.named (.scalar "ID"))),
    ("name", .nonNull (.named (.scalar "String"))),
    ("tags", .nonNull (.list (.nonNull (.named (.scalar "String")))))]

/-- A schema exposing `Thing` under the root query field `thing`. -/
def thingSchema : GQLSchema :=
  { queryType := some (.object "Query" [("thing", .named thingType)])
    mutationType := none }

/-- The parsed sample `findOne` document `query { thing { ID name tags } }`
(the sample selection `{ ID name tags }` of the claim, under its operation
root field). -/
def thingFindOneDocument : DocumentNode :=
  ⟨[.operation ⟨"query",
    [.field "thing" (some [.field "ID" none, .field "name" none, .field "tags" none])]⟩]⟩

/-- A plain resource configuration: no sortable-field list, no explicit
reference fields, no sub-property preservation. -/
def thingResource : GraphQLResourceConfig :=
  { id := "Thing", sortableFields := none, referenceFields := [], makeSubproperties := false }


/-- C1: initializing the `Thing` resource against the scenario schema with
the sample document `{ ID name tags }` produces exactly three properties,
in this relative order: `ID` (string kind, identifier flag set), `name`
(string kind, required), `tags` (string kind, array, required). -/
theorem c1_thing_end_to_end :
    inflateResource 9 thingResource thingSchema thingFindOneDocument
      = .ok [
        .mk "ID" .string true true none none false true [],
        .mk "name" .string false true none none false true [],
        .mk "tags" .string false true none none true true []] := rfl

/-- C5 (counterexample): walking the sample-document field `tags`, declared
as the non-null list of a non-null scalar (`[String!]!`), yields
`isArray = true` and `isRequired = true` — not `isRequired = false` as
claimed.  The unwrapping loop sees the outer non-null wrapper while
`isArray` is still false and sets `isRequired`; the tie-break rule only
suppresses non-null wrappers seen after a list wrapper (as in `[String!]`). -/
theorem c5_nonnull_list_counterexample :
    (inflateResource 9 thingResource thingSchema
        ⟨[.operation ⟨"query", [.field "thing" (some [.field "tags" none])]⟩]⟩).map
      (fun ps => ps.map (fun p => (p.isArray, p.isRequired)))
      = .ok [(true, true)] ∧
    (inflateResource 9 thingResource thingSchema
        ⟨[.operation ⟨"query", [.field "thing" (some [.field "tags" none])]⟩]⟩).map
      (fun ps => ps.map (fun p => (p.isArray, p.isRequired)))
      ≠ .ok [(true, false)] := by
  refine ⟨rfl, ?_⟩
  intro h
  rw [show (inflateResource 9 thingResource thingSchema
      ⟨[.operation ⟨"query", [.field "thing" (some [.field "tags" none])]⟩]⟩).map
      (fun ps => ps.map (fun p => (p.isArray, p.isRequired)))
      = .ok [(true, true)] from rfl] at h
  simp at h

/-- C5 (amended): walking a sample-document field whose declared type is a
non-null list of a non-null named type (`[T!]!`) yields a property with
`isArray = true` and `isRequired = true`, for every resource
configuration, walker position and scalar name. -/
theorem c5_nonnull_list_amended (res : GraphQLResourceConfig)
    (pname fname sname : String) (pfields : List (String × GQLType))
    (path : List String) (props : PropMap) (tm : TypeMap)
    (hpq : pname ≠ "Query") (hpm : pname ≠ "Mutation")
    (hf : pfields.lookup fname
      = some (.nonNull (.list (.nonNull (.named (.scalar sname)))))) :
    ∃ p props' tm',
      walkSelection res (some (.object pname pfields)) path props tm (.field fname none)
        = .ok ([p], props', tm') ∧ p.isArray = true ∧ p.isRequired = true := by
  rw [walkSelection]
  simp only [GQLNamedType.name]
  rw [if_neg (not_or.mpr ⟨hpq, hpm⟩)]
  rw [getFieldType, hf]
  exact ⟨_, _, _, rfl, rfl, rfl⟩

/-- Witness for `c5_nonnull_list_amended` at the scenario's `tags` field. -/
theorem c5_nonnull_list_amended_witness :
    ∃ p props' tm',
      walkSelection thingResource (some thingType) [] [] [] (.field "tags" none)
        = .ok ([p], props', tm') ∧ p.isArray = true ∧ p.isRequired = true :=
  c5_nonnull_list_amended thingResource "Thing" "tags" "String"
    [("ID", .nonNull (.named (.scalar "ID"))),
     ("name", .nonNull (.named (.scalar "String"))),
     ("tags", .nonNull (.list (.nonNull (.named (.scalar "String")))))]
    [] [] [] (by decide) (by decide) rfl

/-- C6: whenever the fragment-expanded sample document has a (first)
operation definition whose top-level selection set does not hold exactly
one selection, resource initialization fails with the invalid-document
error of the top-level selection check, whatever the schema and resource
configuration. -/
theorem c6_top_level_selection_count (fuel : Nat) (res : GraphQLResourceConfig)
    (schema : GQLSchema) (doc expanded : DocumentNode)
    (op : OperationDefinitionNode)
    (hexp : expandFragments fuel doc = .ok expanded)
    (hop : expanded.definitions.findSome? (fun d =>
      match d with
      | .operation o => some o
      | _ => none) = some op)
    (hcount : op.selections.length ≠ 1) :
    inflateResource fuel res schema doc
      = .error (.invalidDocument "Top level selections must contain exactly one field") := by
  rw [inflateResource, hexp]
  show inflateExpandedResource res schema expanded = _
  rw [inflateExpandedResource, hop]
  simp only [if_pos hcount]

/-- Witness for `c6_top_level_selection_count`: a sample document whose
top-level selection set holds two fields. -/
theorem c6_top_level_selection_count_witness :
    inflateResource 9 thingResource thingSchema
        ⟨[.operation ⟨"query", [.field "a" none, .field "b" none]⟩]⟩
      = .error (.invalidDocument "Top level selections must contain exactly one field") :=
  c6_top_level_selection_count 9 thingResource thingSchema
    ⟨[.operation ⟨"query", [.field "a" none, .field "b" none]⟩]⟩
    ⟨[.operation ⟨"query", [.field "a" none, .field "b" none]⟩]⟩
    ⟨"query", [.field "a" none, .field "b" none]⟩
    rfl rfl (by decide)

theorem unwrapType_third : ∀ (t : GQLType) (a r : Bool), (unwrapType t a r).2.2 = unwrapNamed t
  | .named _, _, _ => rfl
  | .list inner, _, r => by
      rw [unwrapType, unwrapNamed]
      exact unwrapType_third inner true r
  | .nonNull inner, a, r => by
      rw [unwrapType, unwrapNamed]
      exact unwrapType_third inner a _

theorem typeIsID_unwrap (t : GQLType) (h : typeIsID t = true) :
    unwrapNamed t = .scalar "ID" := by
  rw [typeIsID] at h
  match hu : unwrapNamed t with
  | .scalar n => rw [hu] at h; simp at h; rw [h]
  | .enum n vs => rw [hu] at h; simp at h
  | .object n fs => rw [hu] at h; simp at h

theorem lookup_assocSet_self {α : Type} (l : List (String × α)) (k : String) (v : α) :
    (assocSet l k v).lookup k = some v := by
  induction l with
  | nil => simp [assocSet, List.lookup]
  | cons p rest ih =>
      obtain ⟨k', v'⟩ := p
      rw [assocSet]
      by_cases hk : k' = k
      · rw [if_pos hk, List.lookup]
        simp [hk]
      · rw [if_neg hk, List.lookup]
        have : (k == k') = false := by
          simp [Ne.symm hk]
        rw [this]
        exact ih

theorem except_ok_bind {ε α β : Type} (a : α) (f : α → Except ε β) :
    ((Except.ok a : Except ε α) >>= f) = f a := rfl

theorem referenceChildWalk
    (res : GraphQLResourceConfig) (oname cname : String)
    (ofields : List (String × GQLType)) (cpath : List String)
    (props : PropMap) (tm : TypeMap) (cft : GQLType) (ca cr : Bool)
    (hoq : oname ≠ "Query") (hom : oname ≠ "Mutation")
    (hcf : ofields.lookup cname = some cft)
    (hcu : unwrapType cft false false = (ca, cr, .scalar "ID"))
    (hnoref : res.referenceFields.lookup
        (String.intercalate "." (cpath ++ [cname])) = none) :
    ∃ c cprops ctm,
      walkSelections res (some (.object oname ofields)) cpath props tm
          [.field cname none]
        = .ok ([c], cprops, ctm) ∧ c.isId = true := by
  rw [walkSelections, walkSelection]
  simp only [GQLNamedType.name]
  rw [if_neg (not_or.mpr ⟨hoq, hom⟩)]
  rw [getFieldType, hcf]
  simp only [hcu]
  rw [hnoref]
  exact ⟨_, _, _, rfl, rfl⟩

/-- C2: walking a field whose unwrapped named type is an object type and
whose selection set is exactly one field whose own type unwraps to the
built-in `ID` scalar emits a single property of reference kind, targeting
that object type's name, with no sub-properties — the identifier child
produced for reference detection is discarded by the collapse rule in the
`Field` leave handler (the resource must not request preserved
sub-property trees, and no explicit `referenceFields` override may rename
the child path). -/
theorem c2_reference_inference
    (res : GraphQLResourceConfig) (hm : res.makeSubproperties = false)
    (pname fname oname cname : String)
    (pfields ofields : List (String × GQLType))
    (path : List String) (props : PropMap) (tm : TypeMap)
    (ftype cft : GQLType) (fa fr ca cr : Bool)
    (hpq : pname ≠ "Query") (hpm : pname ≠ "Mutation")
    (hoq : oname ≠ "Query") (hom : oname ≠ "Mutation")
    (hf : pfields.lookup fname = some ftype)
    (hu : unwrapType ftype false false = (fa, fr, .object oname ofields))
    (hcf : ofields.lookup cname = some cft)
    (hcu : unwrapType cft false false = (ca, cr, .scalar "ID"))
    (hnoref : res.referenceFields.lookup
        (String.intercalate "." ((path ++ [fname]) ++ [cname])) = none) :
    ∃ p props' tm',
      walkSelection res (some (.object pname pfields)) path props tm
          (.field fname (some [.field cname none]))
        = .ok ([p], props', tm') ∧
      p.type = .reference ∧ p.referencing = some oname ∧ p.subProperties = [] := by
  have hid : typeIsID cft = true := by
    rw [typeIsID, ← unwrapType_third cft false false, hcu]
    simp
  rw [walkSelection]
  simp only [GQLNamedType.name]
  rw [if_neg (not_or.mpr ⟨hpq, hpm⟩)]
  rw [getFieldType, hf]
  simp only [hu, Option.getD_some]
  rw [hcf]
  simp only [hid, eq_self_iff_true, if_true]
  rw [except_ok_bind]
  obtain ⟨c, cprops, ctm, hchild, hcid⟩ :=
    referenceChildWalk res oname cname ofields (path ++ [fname]) _ _ cft ca cr
      hoq hom hcf hcu hnoref
  rw [hchild, except_ok_bind]
  simp only [hm]
  rw [hcid]
  exact ⟨_, _, _, rfl, rfl, rfl, rfl⟩

/-- Witness for `c2_reference_inference`: walking
`owner { ID }` against `type Person { ID: ID! }` yields one reference
property targeting `Person` with no sub-properties. -/
theorem c2_reference_inference_witness :
    ∃ p props' tm',
      walkSelection thingResource
          (some (.object "Thing2" [("owner", .named (.object "Person" [("ID", .nonNull (.named (.scalar "ID")))]))]))
          [] [] []
          (.field "owner" (some [.field "ID" none]))
        = .ok ([p], props', tm') ∧
      p.type = .reference ∧ p.referencing = some "Person" ∧ p.subProperties = [] :=
  c2_reference_inference thingResource rfl "Thing2" "owner" "Person" "ID"
    [("owner", .named (.object "Person" [("ID", .nonNull (.named (.scalar "ID")))]))]
    [("ID", .nonNull (.named (.scalar "ID")))]
    [] [] [] (.named (.object "Person" [("ID", .nonNull (.named (.scalar "ID")))]))
    (.nonNull (.named (.scalar "ID"))) false false false true
    (by decide) (by decide) (by decide) (by decide)
    rfl rfl rfl rfl rfl

/-! ## Claim C7: `GraphQLConnection.request` / `formatGraphQLErrors` -/

/-- A GraphQL-level error entry of the response body. -/
structure GraphQLFormattedError where
  message : String

/-- The response body `{data, errors}` returned by the transport client. -/
structure GraphQLClientResponse where
  data : JValue
  errors : List GraphQLFormattedError

/-- `GraphQLConnection.formatGraphQLErrors`. -/
def formatGraphQLErrors (errors : List GraphQLFormattedError) : String :=
  "GraphQL request error: "
    ++ String.intercalate ", " (errors.map GraphQLFormattedError.message)

/-- The outcome of `GraphQLConnection.request` on a transport response that
arrived: a non-empty `errors` array is reported and thrown
(`reportAndThrow` rethrows after the observer callback), otherwise the
`data` object is returned. -/
def requestOutcome (response : GraphQLClientResponse) : Except AdapterError JValue :=
  if response.errors.length ≠ 0 then
    .error (.remoteGraphQL (formatGraphQLErrors response.errors))
  else .ok response.data

/-- C7: every response with a non-empty `errors` array makes `request`
throw — also when `data` is present — and the thrown message contains the

(`", "`-joined) concatenation of all returned error messages. -/
theorem c7_errors_always_throw (response : GraphQLClientResponse)
    (hne : response.errors ≠ []) :
    requestOutcome response
      = .error (.remoteGraphQL (formatGraphQLErrors response.errors)) ∧
    ∃ pre, formatGraphQLErrors response.errors
      = pre ++ String.intercalate ", " (response.errors.map GraphQLFormattedError.message) := by
  constructor
  · rw [requestOutcome, if_pos]
    simpa using hne
  · exact ⟨"GraphQL request error: ", rfl⟩

/-- Witness for `c7_errors_always_throw`: a response carrying both a data
object and two errors fails with the concatenated message. -/
theorem c7_errors_always_throw_witness :
    requestOutcome ⟨.vObj [("x", .vInt 1)], [⟨"boom"⟩, ⟨"bang"⟩]⟩
      = .error (.remoteGraphQL (formatGraphQLErrors [⟨"boom"⟩, ⟨"bang"⟩])) ∧
    formatGraphQLErrors [⟨"boom"⟩, ⟨"bang"⟩] = "GraphQL request error: boom, bang" :=
  ⟨(c7_errors_always_throw ⟨.vObj [("x", .vInt 1)], [⟨"boom"⟩, ⟨"bang"⟩]⟩ (by simp)).1, rfl⟩

/-! ## Claim C4: `GraphQLResourceAdapter.mapFilter` -/

/-- `Number(s)` for the integral strings handled by the model: optional
sign and a non-empty all-digit remainder (fractional or malformed numeric
strings are outside the integer value model and map to `none`, which the
scalar serializers treat as a non-numeric value). -/
def jsNumberOfString (s : String) : Option Int :=
  let chars := s.data.dropWhile (fun ch => ch = ' ' ∨ ch = '\t' ∨ ch = '\n' ∨ ch = '\r')
  let (neg, rest) :=
    match chars with
    | '-' :: r => (true, r)
    | '+' :: r => (false, r)
    | r => (false, r)
  if rest ≠ [] ∧ rest.all Char.isDigit then
    some (if neg then -(digitsVal rest : Int) else (digitsVal rest : Int))
  else none

/-- `GraphQLString.serialize`. -/
def serializeString (v : JValue) : Except AdapterError JValue :=
  match v with
  | .vStr s => .ok (.vStr s)
  | .vBool b => .ok (.vStr (if b then "true" else "false"))
  | .vInt n => .ok (.vStr (toString n))
  | _ => .error (.coercion "String cannot represent value")

/-- `GraphQLID.serialize`. -/
def serializeID (v : JValue) : Except AdapterError JValue :=
  match v with
  | .vStr s => .ok (.vStr s)
  | .vInt n => .ok (.vStr (toString n))
  | _ => .error (.coercion "ID cannot represent value")

/-- `GraphQLBoolean.serialize`. -/
def serializeBoolean (v : JValue) : Except AdapterError JValue :=
  match v with
  | .vBool b => .ok (.vBool b)
  | .vInt n => .ok (.vBool (n ≠ 0))
  | _ => .error (.coercion "Boolean cannot represent a non boolean value")

/-- `GraphQLFloat.serialize`: booleans become 0/1, non-empty numeric
strings are converted with `Number`, anything else (including `undefined`
and the empty string) throws. -/
def serializeFloat (v : JValue) : Except AdapterError JValue :=
  match v with
  | .vInt n => .ok (.vInt n)
  | .vBool b => .ok (.vInt (if b then 1 else 0))
  | .vStr s =>
      if s = "" then .error (.coercion "Float cannot represent non numeric value")
      else
        match jsNumberOfString s with
        | some n => .ok (.vInt n)
        | none => .error (.coercion "Float cannot represent non numeric value")
  | _ => .error (.coercion "Float cannot represent non numeric value")

/-- `GraphQLInt.serialize`: as `Float`, with the 32-bit range check. -/
def serializeInt (v : JValue) : Except AdapterError JValue :=
  match serializeFloat v with
  | .ok (.vInt n) =>
      if -2147483648 ≤ n ∧ n ≤ 2147483647 then .ok (.vInt n)
      else .error (.coercion "Int cannot represent non 32-bit signed integer value")
  | .ok x => .ok x
  | .error _ => .error (.coercion "Int cannot represent non-integer value")

/-- `GraphQLScalarType.serialize` dispatch: the five built-in scalars have
their spec serializers, and custom scalars built by `buildClientSchema`
keep the default identity serializer. -/
def serializeScalar (name : String) (v : JValue) : Except AdapterError JValue :=
  match name with
  | "String" => serializeString v
  | "ID" => serializeID v
  | "Int" => serializeInt v
  | "Float" => serializeFloat v
  | "Boolean" => serializeBoolean v
  | _ => .ok v

/-- `convertValue` of the resource module: scalar types serialize the
value (possibly throwing), all other types return it unchanged. -/
def convertValue (value : JValue) (t : GQLNamedType) : Except AdapterError JValue :=
  match t with
  | .scalar name => serializeScalar name value
  | _ => .ok value

/-- `isInputType` restricted to the modelled named types: scalars and
enums are input types, object types are not. -/
def isInputType (t : GQLNamedType) : Bool :=
  match t with
  | .object _ _ => false
  | _ => true

/-- The `GraphQLObjectType → GraphQLID` substitution of `mapFilter`. -/
def substObjectID (t : GQLNamedType) : GQLNamedType :=
  match t with
  | .object _ _ => .scalar "ID"
  | t => t

/-- `element.property` as used by `mapFilter` (`path()` and `type()`). -/
structure FilterPropertyRef where
  path : String
  type : PropertyType

/-- A filter element's value: a single string, or a from/to range with
optionally absent bounds. -/
inductive FilterVal where
  | str (s : String) : FilterVal
  | range (fromVal toVal : Option String) : FilterVal

/-- One element of the generic admin filter. -/
structure FilterElement where
  path : String
  property : FilterPropertyRef
  value : FilterVal

/-- The four filter operations of `FieldFilter`. -/
inductive FilterOperation where
  | GTE | LTE | EQ | MATCH
  deriving Repr, DecidableEq

/-- A produced field filter (the adapter fills the `to` operand for all
operations; the TS field is named `to`, a reserved word here, so it is
spelled `toVal`). -/
structure FieldFilter where
  field : String
  is : FilterOperation
  toVal : JValue

/-- JS strict equality `from === to` on the string-or-undefined values
that reach the comparison in `mapFilter`. -/
def jsStrictEqSU : JValue → JValue → Bool
  | .vStr a, .vStr b => a == b
  | .vUndef, .vUndef => true
  | _, _ => false

/-- `from !== undefined && from != ""` (and symmetrically for `to`). -/
def presentNonEmpty : JValue → Bool
  | .vStr s => s ≠ ""
  | _ => false

/-- The body of `GraphQLResourceAdapter.mapFilter` for one filter element
(the `filter.reduce` callback): extract the bounds, choose `MATCH` for
string-kind properties, look the path up in the type map (substituting
`ID` for object types), coerce both bounds — before any emptiness check,
as the source does — then emit one `MATCH`/`EQ` entry when `from === to`,
or the `GTE`/`LTE` entries for the bounds that are present and non-empty. -/
def mapFilterElement (resourceId : String) (tm : TypeMap) (e : FilterElement) :
    Except AdapterError (List FieldFilter) :=
  let fromV : JValue :=
    match e.value with
    | .str s => .vStr s
    | .range f _ =>
        match f with
        | some s => .vStr s
        | none => .vUndef
  let toV : JValue :=
    match e.value with
    | .str s => .vStr s
    | .range _ t =>
        match t with
        | some s => .vStr s
        | none => .vUndef
  let matchOperation : FilterOperation :=
    if e.property.type == .string then .MATCH else .EQ
  match (tm.lookup e.path).map substObjectID with
  | none =>
      .error (.coercion
        ("Cannot get valid GraphQL type from " ++ resourceId ++ ":" ++ e.path))
  | some graphQLType =>
      if !isInputType graphQLType then
        .error (.coercion
          ("Cannot get valid GraphQL type from " ++ resourceId ++ ":" ++ e.path))
      else do
        let coercedFrom ← convertValue fromV graphQLType
        let coercedTo ← convertValue toV graphQLType
        if jsStrictEqSU fromV toV then
          .ok [⟨e.property.path, matchOperation, coercedFrom⟩]
        else
          .ok ((if presentNonEmpty fromV then [⟨e.property.path, .GTE, coercedFrom⟩] else [])
            ++ (if presentNonEmpty toV then [⟨e.property.path, .LTE, coercedTo⟩] else []))

/-- `GraphQLResourceAdapter.mapFilter`: the `reduce` over all filter
elements, aborting on the first thrown coercion error. -/
def mapFilter (resourceId : String) (tm : TypeMap) :
    List FilterElement → Except AdapterError (List FieldFilter)
  | [] => .ok []
  | e :: rest => do
      let fs ← mapFilterElement resourceId tm e
      let rest' ← mapFilter resourceId tm rest
      .ok (fs ++ rest')

theorem mapFilter_single_string_match (rid : String) (tm : TypeMap) (e : FilterElement)
    (s : String) (T : GQLNamedType) (c : JValue)
    (hval : e.value = .str s) (hty : e.property.type = .string)
    (htm : tm.lookup e.path = some T)
    (hin : isInputType (substObjectID T) = true)
    (hc : convertValue (.vStr s) (substObjectID T) = .ok c) :
    mapFilter rid tm [e] = .ok [⟨e.property.path, .MATCH, c⟩] := by
  rw [mapFilter, mapFilterElement]
  simp only [hval, hty, htm, Option.map_some', hin, Bool.not_true,
    if_neg (by simp : ¬(false = true))]
  simp only [jsStrictEqSU, beq_self_eq_true, eq_self_iff_true, if_true]
  rw [hc]
  rfl

theorem mapFilter_two_sided_range (rid : String) (tm : TypeMap) (e : FilterElement)
    (f t : String) (T : GQLNamedType) (cf ct : JValue)
    (hval : e.value = .range (some f) (some t))
    (hne : f ≠ t) (hfne : f ≠ "") (htne : t ≠ "")
    (htm : tm.lookup e.path = some T)
    (hin : isInputType (substObjectID T) = true)
    (hcf : convertValue (.vStr f) (substObjectID T) = .ok cf)
    (hct : convertValue (.vStr t) (substObjectID T) = .ok ct) :
    mapFilter rid tm [e]
      = .ok [⟨e.property.path, .GTE, cf⟩, ⟨e.property.path, .LTE, ct⟩] := by
  rw [mapFilter, mapFilterElement]
  simp only [hval, htm, Option.map_some', hin, Bool.not_true,
    if_neg (by simp : ¬(false = true))]
  rw [hcf, hct]
  simp only [jsStrictEqSU, except_ok_bind]
  rw [if_neg (by simp [hne] : ¬((f == t) = true))]
  simp only [presentNonEmpty]
  rw [if_pos (by simp [hfne] : (decide ¬f = "") = true),
    if_pos (by simp [htne] : (decide ¬t = "") = true)]
  rfl

/-- The JS value of an optional range bound (`undefined` when absent). -/
def boundValue (b : Option String) : JValue :=
  match b with
  | some s => .vStr s
  | none => .vUndef

theorem mapFilter_missing_lower_bound (rid : String) (tm : TypeMap) (e : FilterElement)
    (fOpt : Option String) (t : String) (T : GQLNamedType) (cf ct : JValue)
    (hval : e.value = .range fOpt (some t))
    (hfa : fOpt = none ∨ fOpt = some "") (htne : t ≠ "")
    (htm : tm.lookup e.path = some T)
    (hin : isInputType (substObjectID T) = true)
    (hcf : convertValue (boundValue fOpt) (substObjectID T) = .ok cf)
    (hct : convertValue (.vStr t) (substObjectID T) = .ok ct) :
    mapFilter rid tm [e] = .ok [⟨e.property.path, .LTE, ct⟩] := by
  rw [mapFilter, mapFilterElement]
  simp only [boundValue] at hcf
  rcases hfa with rfl | rfl
  · simp only [boundValue] at hcf
    simp only [hval, htm, Option.map_some', hin, Bool.not_true,
      if_neg (by simp : ¬(false = true))]
    rw [hcf, hct]
    simp only [jsStrictEqSU, except_ok_bind, presentNonEmpty]
    rw [if_pos (by simp [htne] : (decide ¬t = "") = true)]
    rfl
  · simp only [boundValue] at hcf
    simp only [hval, htm, Option.map_some', hin, Bool.not_true,
      if_neg (by simp : ¬(false = true))]
    rw [hcf, hct]
    simp only [jsStrictEqSU, except_ok_bind, presentNonEmpty]
    rw [if_neg (by simp [Ne.symm htne] : ¬(("" == t) = true))]
    rw [if_neg (by simp : ¬((decide ¬"" = "") = true)),
      if_pos (by simp [htne] : (decide ¬t = "") = true)]
    rfl

theorem mapFilter_missing_upper_bound (rid : String) (tm : TypeMap) (e : FilterElement)
    (f : String) (tOpt : Option String) (T : GQLNamedType) (cf ct : JValue)
    (hval : e.value = .range (some f) tOpt)
    (hta : tOpt = none ∨ tOpt = some "") (hfne : f ≠ "")
    (htm : tm.lookup e.path = some T)
    (hin : isInputType (substObjectID T) = true)
    (hcf : convertValue (.vStr f) (substObjectID T) = .ok cf)
    (hct : convertValue (boundValue tOpt) (substObjectID T) = .ok ct) :
    mapFilter rid tm [e] = .ok [⟨e.property.path, .GTE, cf⟩] := by
  rw [mapFilter, mapFilterElement]
  rcases hta with rfl | rfl
  · simp only [boundValue] at hct
    simp only [hval, htm, Option.map_some', hin, Bool.not_true,
      if_neg (by simp : ¬(false = true))]
    rw [hcf, hct]
    simp only [jsStrictEqSU, except_ok_bind, presentNonEmpty]
    rw [if_pos (by simp [hfne] : (decide ¬f = "") = true)]
    rfl
  · simp only [boundValue] at hct
    simp only [hval, htm, Option.map_some', hin, Bool.not_true,
      if_neg (by simp : ¬(false = true))]
    rw [hcf, hct]
    simp only [jsStrictEqSU, except_ok_bind, presentNonEmpty]
    rw [if_neg (by simp [hfne] : ¬((f == "") = true))]
    rw [if_pos (by simp [hfne] : (decide ¬f = "") = true),
      if_neg (by simp : ¬((decide ¬"" = "") = true))]
    rfl

/-- C4 (counterexample): on a numeric (`Float`-typed) field, a range with
an **absent** bound — on either side — does not have its `GTE`/`LTE` entry
omitted: both bounds are coerced before the emptiness check, and
`GraphQLFloat.serialize(undefined)` throws, so the whole `mapFilter` call
fails with a coercion error instead of emitting the lone remaining entry
(`LTE` for a missing lower bound, `GTE` for a missing upper bound). -/
theorem c4_absent_bound_counterexample :
    (mapFilter "Thing" [("age", .scalar "Float")]
        [⟨"age", ⟨"age", .number⟩, .range none (some "42")⟩]
      = .error (.coercion "Float cannot represent non numeric value") ∧
    mapFilter "Thing" [("age", .scalar "Float")]
        [⟨"age", ⟨"age", .number⟩, .range none (some "42")⟩]
      ≠ .ok [⟨"age", .LTE, .vInt 42⟩]) ∧
    (mapFilter "Thing" [("age", .scalar "Float")]
        [⟨"age", ⟨"age", .number⟩, .range (some "42") none⟩]
      = .error (.coercion "Float cannot represent non numeric value") ∧
    mapFilter "Thing" [("age", .scalar "Float")]
        [⟨"age", ⟨"age", .number⟩, .range (some "42") none⟩]
      ≠ .ok [⟨"age", .GTE, .vInt 42⟩]) := by
  refine ⟨⟨rfl, ?_⟩, ⟨rfl, ?_⟩⟩
  · intro h
    rw [show mapFilter "Thing" [("age", .scalar "Float")]
        [⟨"age", ⟨"age", .number⟩, .range none (some "42")⟩]
        = .error (.coercion "Float cannot represent non numeric value") from rfl] at h
    simp at h
  · intro h
    rw [show mapFilter "Thing" [("age", .scalar "Float")]
        [⟨"age", ⟨"age", .number⟩, .range (some "42") none⟩]
        = .error (.coercion "Float cannot represent non numeric value") from rfl] at h
    simp at h

/-- C4 (amended): `mapFilter` emits exactly one `MATCH` filter for a
single string value on a string-kind field, and exactly a `GTE`/`LTE` pair
for a two-sided range whose bounds coerce; a missing (absent or empty)
lower bound omits the `GTE` entry, and symmetrically a missing upper bound
omits the `LTE` entry, **provided the missing bound itself survives
coercion** — the empty string on string-serializable fields, or absent
bounds on non-scalar-coerced (e.g. enum or custom-scalar) fields; on
built-in numeric scalars an absent bound instead fails the whole call (see
the counterexample). -/
theorem c4_mapFilter_amended :
    (∀ (rid : String) (tm : TypeMap) (e : FilterElement) (s : String)
        (T : GQLNamedType) (c : JValue),
      e.value = .str s → e.property.type = .string →
      tm.lookup e.path = some T → isInputType (substObjectID T) = true →
      convertValue (.vStr s) (substObjectID T) = .ok c →
      mapFilter rid tm [e] = .ok [⟨e.property.path, .MATCH, c⟩]) ∧
    (∀ (rid : String) (tm : TypeMap) (e : FilterElement) (f t : String)
        (T : GQLNamedType) (cf ct : JValue),
      e.value = .range (some f) (some t) → f ≠ t → f ≠ "" → t ≠ "" →
      tm.lookup e.path = some T → isInputType (substObjectID T) = true →
      convertValue (.vStr f) (substObjectID T) = .ok cf →
      convertValue (.vStr t) (substObjectID T) = .ok ct →
      mapFilter rid tm [e]
        = .ok [⟨e.property.path, .GTE, cf⟩, ⟨e.property.path, .LTE, ct⟩]) ∧
    (∀ (rid : String) (tm : TypeMap) (e : FilterElement) (fOpt : Option String)
        (t : String) (T : GQLNamedType) (cf ct : JValue),
      e.value = .range fOpt (some t) → (fOpt = none ∨ fOpt = some "") → t ≠ "" →
      tm.lookup e.path = some T → isInputType (substObjectID T) = true →
      convertValue (boundValue fOpt) (substObjectID T) = .ok cf →
      convertValue (.vStr t) (substObjectID T) = .ok ct →
      mapFilter rid tm [e] = .ok [⟨e.property.path, .LTE, ct⟩]) ∧
    (∀ (rid : String) (tm : TypeMap) (e : FilterElement) (f : String)
        (tOpt : Option String) (T : GQLNamedType) (cf ct : JValue),
      e.value = .range (some f) tOpt → (tOpt = none ∨ tOpt = some "") → f ≠ "" →
      tm.lookup e.path = some T → isInputType (substObjectID T) = true →
      convertValue (.vStr f) (substObjectID T) = .ok cf →
      convertValue (boundValue tOpt) (substObjectID T) = .ok ct →
      mapFilter rid tm [e] = .ok [⟨e.property.path, .GTE, cf⟩]) :=
  ⟨fun rid tm e s T c hval hty htm hin hc =>
      mapFilter_single_string_match rid tm e s T c hval hty htm hin hc,
   fun rid tm e f t T cf ct hval hne hfne htne htm hin hcf hct =>
      mapFilter_two_sided_range rid tm e f t T cf ct hval hne hfne htne htm hin hcf hct,
   fun rid tm e fOpt t T cf ct hval hfa htne htm hin hcf hct =>
      mapFilter_missing_lower_bound rid tm e fOpt t T cf ct hval hfa htne htm hin hcf hct,
   fun rid tm e f tOpt T cf ct hval hta hfne htm hin hcf hct =>
      mapFilter_missing_upper_bound rid tm e f tOpt T cf ct hval hta hfne htm hin hcf hct⟩

/-- Witness for `c4_mapFilter_amended`: a single string value (`MATCH`), a
two-sided numeric range (`GTE` + `LTE`), an empty lower bound on a string
field (lone `LTE`), and an absent upper bound on a custom-scalar field
(lone `GTE`). -/
theorem c4_mapFilter_amended_witness :
    mapFilter "Thing" [("name", .scalar "String")]
        [⟨"name", ⟨"name", .string⟩, .str "abc"⟩]
      = .ok [⟨"name", .MATCH, .vStr "abc"⟩] ∧
    mapFilter "Thing" [("age", .scalar "Float")]
        [⟨"age", ⟨"age", .number⟩, .range (some "1") (some "2")⟩]
      = .ok [⟨"age", .GTE, .vInt 1⟩, ⟨"age", .LTE, .vInt 2⟩] ∧
    mapFilter "Thing" [("name", .scalar "String")]
        [⟨"name", ⟨"name", .string⟩, .range (some "") (some "zz")⟩]
      = .ok [⟨"name", .LTE, .vStr "zz"⟩] ∧
    mapFilter "Thing" [("when", .scalar "Date")]
        [⟨"when", ⟨"when", .datetime⟩, .range (some "2020") none⟩]
      = .ok [⟨"when", .GTE, .vStr "2020"⟩] :=
  ⟨c4_mapFilter_amended.1 "Thing" [("name", .scalar "String")]
      ⟨"name", ⟨"name", .string⟩, .str "abc"⟩ "abc" (.scalar "String") (.vStr "abc")
      rfl rfl rfl rfl rfl,
   c4_mapFilter_amended.2.1 "Thing" [("age", .scalar "Float")]
      ⟨"age", ⟨"age", .number⟩, .range (some "1") (some "2")⟩ "1" "2"
      (.scalar "Float") (.vInt 1) (.vInt 2)
      rfl (by decide) (by decide) (by decide) rfl rfl rfl rfl,
   c4_mapFilter_amended.2.2.1 "Thing" [("name", .scalar "String")]
      ⟨"name", ⟨"name", .string⟩, .range (some "") (some "zz")⟩ (some "") "zz"
      (.scalar "String") (.vStr "") (.vStr "zz")
      rfl (Or.inr rfl) (by decide) rfl rfl rfl rfl,
   c4_mapFilter_amended.2.2.2 "Thing" [("when", .scalar "Date")]
      ⟨"when", ⟨"when", .datetime⟩, .range (some "2020") none⟩ "2020" none
      (.scalar "Date") (.vStr "2020") .vUndef
      rfl (Or.inl rfl) (by decide) rfl rfl rfl rfl⟩
